import Mathlib

/-!
Shallow embedding of the live quiz session engine of `src/backend/server.js`
(the Socket.IO handlers `join-quiz`, `start-quiz`, `submit-answer`,
`next-question`, `finish-quiz`, `get-leaderboard`, `disconnect`), together
with proofs of the specified properties.

Modelling conventions:
* The process-wide `activeQuizSessions` map is room-indexed; every claim is
  about the events of a single room, so the state `SysState` carries the
  registry entry for that one room (`room : Option Session`; `none` models
  "no entry in the map") plus a count of armed auto-advance timers.
* JS `Map` keyed by `socket.id` is an insertion-ordered association list
  `List (Nat × Participant)`; `Map.set` overwrites in place, `Map.delete`
  removes, `Map.values()` iterates in insertion order.
* `Question.findById` (an external datastore read) is passed in as a lookup
  function `findQuestion : Nat → Option Question`.
* JS numbers that are always nonnegative integers here become `Nat`;
  `Math.round((score / maxScore) * 100)` with `maxScore = 0` is `NaN` in JS,
  modelled by `Option Nat` with `none` for the division-by-zero branch.
* `Array.prototype.sort` with comparator `(a, b) => b.score - a.score` is a
  stable sort by descending score (ES2019 guarantees stability); it is
  embedded as a stable insertion sort on the score projection.
* Each `setTimeout(() => socket.emit('next-question'), ...)` arms a deferred
  trigger that eventually drives the `next-question` handler once; a fire is
  the `fireTimer` step, which consumes one armed timer. The source never
  cancels a timer, so armed timers survive explicit advances.
-/

namespace QuizEngine

/-- One entry of a question's `options` array: text plus correctness flag. -/
structure AnswerOption where
  text : String
  isCorrect : Bool
deriving DecidableEq

/-- The `type` enum of the Question schema. -/
inductive QType where
  | multipleChoice
  | trueFalse
  | fillInBlank
deriving DecidableEq

/-- The fields of a Question document that the session engine reads. -/
structure Question where
  question : String
  type : QType
  options : List AnswerOption
  correctAnswer : String
  points : Nat
  timeLimit : Option Nat
deriving DecidableEq

/-- The quiz definition snapshotted into a session: its ordered question
sequence and `settings.timeLimit` (the per-question default). -/
structure Quiz where
  questions : List Question
  settingsTimeLimit : Nat
deriving DecidableEq

/-- One element pushed onto `participant.answers` by the submit handler. -/
structure AnswerRecord where
  question : Nat
  selectedAnswer : String
  isCorrect : Bool
  timeSpent : Nat
  points : Nat
deriving DecidableEq

/-- The per-connection participant record stored in `session.participants`. -/
structure Participant where
  userId : Nat
  username : String
  score : Nat
  answers : List AnswerRecord
deriving DecidableEq

/-- The session object stored in `activeQuizSessions` for one room. -/
structure Session where
  quiz : Quiz
  participants : List (Nat × Participant)
  currentQuestion : Nat
  isActive : Bool
  startTime : Option Nat
deriving DecidableEq

/-- The state of one room: its registry entry (`none` when the room has no
session) and the number of armed, not-yet-fired auto-advance timers. -/
structure SysState where
  room : Option Session
  timers : Nat
deriving DecidableEq

/-- JS `Map.set`: overwrite in place when the key exists, else append. -/
def setParticipant (ps : List (Nat × Participant)) (connId : Nat) (p : Participant) :
    List (Nat × Participant) :=
  if ps.any (fun q => q.1 == connId) then
    ps.map (fun q => if q.1 == connId then (connId, p) else q)
  else
    ps ++ [(connId, p)]

/-- The fresh session object built on first join to a room
(`{ quiz, participants: new Map(), currentQuestion: 0, isActive: false, startTime: null }`). -/
def freshSession (quiz : Quiz) : Session :=
  { quiz := quiz, participants := [], currentQuestion := 0, isActive := false,
    startTime := none }

/-- The `join-quiz` handler's session mutation: create the session lazily if
absent, then insert (or overwrite) the participant with score 0 and an empty
answer log. -/
def joinQuiz (st : SysState) (quiz : Quiz) (connId userId : Nat) (username : String) :
    SysState :=
  let s := st.room.getD (freshSession quiz)
  let p : Participant := { userId := userId, username := username, score := 0, answers := [] }
  { st with room := some { s with participants := setParticipant s.participants connId p } }

/-- The sanitized question payload broadcast by `start-quiz` / `next-question`:
correctness flags stripped, `question.timeLimit || settings.timeLimit` for the
time limit (JS `||` also treats 0 as absent). -/
structure QuestionPayload where
  questionNumber : Nat
  totalQuestions : Nat
  question : String
  type : QType
  options : List String
  timeLimit : Nat
  points : Nat
deriving DecidableEq

/-- Build the broadcast payload for the question at index `idx`. -/
def mkPayload (quiz : Quiz) (q : Question) (idx : Nat) : QuestionPayload :=
  { questionNumber := idx + 1
    totalQuestions := quiz.questions.length
    question := q.question
    type := q.type
    options := q.options.map (fun o => o.text)
    timeLimit :=
      match q.timeLimit with
      | some t => if t = 0 then quiz.settingsTimeLimit else t
      | none => quiz.settingsTimeLimit
    points := q.points }

/-- The `start-quiz` handler: no-op without a session; otherwise set
`isActive`, `startTime`, `currentQuestion = 0`, broadcast question 0 and arm
the auto-advance timer. With an empty question list the JS handler throws a
`TypeError` after the three mutations (reading `question.question` of
`undefined`), so no payload is broadcast and no timer armed. -/
def startQuiz (st : SysState) (now : Nat) : SysState × Option QuestionPayload :=
  match st.room with
  | none => (st, none)
  | some s =>
    let s' := { s with isActive := true, startTime := some now, currentQuestion := 0 }
    match s.quiz.questions[0]? with
    | some q => ({ room := some s', timers := st.timers + 1 }, some (mkPayload s.quiz q 0))
    | none => ({ st with room := some s' }, none)

/-- JS `String.prototype.toLowerCase`, character by character. -/
def jsToLower (s : String) : String := String.mk (s.data.map Char.toLower)

/-- JS `String.prototype.trim`: strip leading and trailing whitespace. -/
def jsTrim (s : String) : String :=
  String.mk (((s.data.dropWhile Char.isWhitespace).reverse.dropWhile
    Char.isWhitespace).reverse)

/-- The answer-correctness check of the `submit-answer` handler
(`correctAnswer.toLowerCase().trim() === selectedAnswer.toLowerCase().trim()`
for fill-in-blank). -/
def checkAnswer (q : Question) (selectedAnswer : String) : Bool :=
  match q.type with
  | QType.multipleChoice =>
    match q.options.find? (fun o => o.isCorrect) with
    | some correctOption => correctOption.text == selectedAnswer
    | none => false
  | QType.trueFalse =>
    match q.options.find? (fun o => o.isCorrect) with
    | some correctOption => correctOption.text == selectedAnswer
    | none => false
  | QType.fillInBlank =>
    jsTrim (jsToLower q.correctAnswer) == jsTrim (jsToLower selectedAnswer)

/-- The `answer-result` payload sent back to the submitting connection. -/
structure AnswerResult where
  isCorrect : Bool
  points : Nat
  totalScore : Nat
  correctAnswer : Option String
deriving DecidableEq

/-- The answer record pushed onto the participant's log by an accepted
submit: selected answer, computed correctness, and awarded points
(the question's value when correct, else 0). -/
def answerRecordOf (q : Question) (qid t : Nat) (sel : String) : AnswerRecord :=
  { question := qid
    selectedAnswer := sel
    isCorrect := checkAnswer q sel
    timeSpent := t
    points := if checkAnswer q sel then q.points else 0 }

/-- The participant state after an accepted submit: score increased by the
awarded points, answer record appended. -/
def submittedParticipant (p : Participant) (q : Question) (qid t : Nat) (sel : String) :
    Participant :=
  { userId := p.userId
    username := p.username
    score := p.score + (if checkAnswer q sel then q.points else 0)
    answers := p.answers ++ [answerRecordOf q qid t sel] }

/-- The revealed correct answer included in the `answer-result` payload. -/
def revealedAnswer (q : Question) : Option String :=
  match q.type with
  | QType.fillInBlank => some q.correctAnswer
  | _ => (q.options.find? (fun o => o.isCorrect)).map (fun o => o.text)

/-- The `submit-answer` handler: guards (no session / inactive / no
participant / question not found) return the state unchanged with no emitted
result; otherwise evaluate, append the answer record and add the points. -/
def submitAnswer (st : SysState) (connId : Nat) (findQuestion : Nat → Option Question)
    (questionId : Nat) (selectedAnswer : String) (timeSpent : Nat) :
    SysState × Option AnswerResult :=
  match st.room with
  | none => (st, none)
  | some s =>
    if s.isActive then
      match s.participants.lookup connId with
      | none => (st, none)
      | some participant =>
        match findQuestion questionId with
        | none => (st, none)
        | some q =>
          let isCorrect := checkAnswer q selectedAnswer
          let points := if isCorrect then q.points else 0
          let record : AnswerRecord :=
            { question := questionId
              selectedAnswer := selectedAnswer
              isCorrect := isCorrect
              timeSpent := timeSpent
              points := points }
          let participant' : Participant :=
            { participant with
              answers := participant.answers ++ [record]
              score := participant.score + points }
          let revealed : Option String :=
            match q.type with
            | QType.fillInBlank => some q.correctAnswer
            | _ => (q.options.find? (fun o => o.isCorrect)).map (fun o => o.text)
          ({ st with room := some { s with
              participants := setParticipant s.participants connId participant' } },
           some { isCorrect := isCorrect
                  points := points
                  totalScore := participant'.score
                  correctAnswer := revealed })
    else (st, none)

/-- What the `next-question` handler emits: nothing (guard failed), the next
question's broadcast payload, or the `finish-quiz` signal. -/
inductive NQOut where
  | noop
  | question (payload : QuestionPayload)
  | finishSignal
deriving DecidableEq

/-- The `next-question` handler: no-op if no active session; increment
`currentQuestion`; at or past the bound emit the finish signal, otherwise
broadcast the question at the new index and arm the auto-advance timer. -/
def nextQuestion (st : SysState) : SysState × NQOut :=
  match st.room with
  | none => (st, NQOut.noop)
  | some s =>
    if s.isActive then
      let cq := s.currentQuestion + 1
      let s' := { s with currentQuestion := cq }
      if h : s.quiz.questions.length ≤ cq then
        ({ st with room := some s' }, NQOut.finishSignal)
      else
        ({ room := some s', timers := st.timers + 1 },
         NQOut.question (mkPayload s.quiz (s.quiz.questions.get ⟨cq, Nat.lt_of_not_le h⟩) cq))
    else (st, NQOut.noop)

/-- One fire of an armed auto-advance timer: it drives the `next-question`
handler (the source never cancels timers, so a fire can happen whenever a
timer is armed, even after an explicit advance superseded it). -/
def fireTimer (st : SysState) : SysState × NQOut :=
  if st.timers = 0 then (st, NQOut.noop)
  else nextQuestion { st with timers := st.timers - 1 }

/-- Fire `k` timers in sequence, collecting the emitted outputs in order. -/
def runTimers : SysState → Nat → SysState × List NQOut
  | st, 0 => (st, [])
  | st, k + 1 =>
    let p := fireTimer st
    let r := runTimers p.1 k
    (r.1, p.2 :: r.2)

/-- `maxScore = session.quiz.questions.reduce((total, q) => total + q.points, 0)`. -/
def maxScoreOf (quiz : Quiz) : Nat :=
  quiz.questions.foldl (fun total q => total + q.points) 0

/-- `Math.round((score / maxScore) * 100)` on nonnegative integers, with
`none` for the `maxScore = 0` branch (JS produces `NaN` there). -/
def pct (score maxScore : Nat) : Option Nat :=
  if maxScore = 0 then none
  else some ((200 * score + maxScore) / (2 * maxScore))

/-- Stable insertion by descending score projection: the new element goes in
front of the first element whose score is not larger, so earlier elements
precede later elements of equal score. -/
def insertDesc {α : Type} (sc : α → Nat) (e : α) : List α → List α
  | [] => [e]
  | x :: xs => if sc x ≤ sc e then e :: x :: xs else x :: insertDesc sc e xs

/-- Stable sort by descending score projection; embeds the ES2019-stable
`.sort((a, b) => b.score - a.score)`. -/
def sortScoreDesc {α : Type} (sc : α → Nat) : List α → List α
  | [] => []
  | x :: xs => insertDesc sc x (sortScoreDesc sc xs)

/-- The `{username, score}` projection used by `get-leaderboard`. -/
structure LBEntry where
  username : String
  score : Nat
deriving DecidableEq

/-- Map a stored participant to its `get-leaderboard` entry. -/
def lbEntryOf (p : Nat × Participant) : LBEntry :=
  { username := p.2.username, score := p.2.score }

/-- The `get-leaderboard` handler: `none` when the room has no session,
otherwise the participants' entries sorted by score descending. -/
def getLeaderboard (st : SysState) : Option (List LBEntry) :=
  st.room.map fun s => sortScoreDesc (fun e => e.score) (s.participants.map lbEntryOf)

/-- The `{username, score, percentage}` leaderboard entry built by the
`finish-quiz` handler. -/
structure FinishLBEntry where
  username : String
  score : Nat
  percentage : Option Nat
deriving DecidableEq

/-- Map a stored participant to its `finish-quiz` leaderboard entry. -/
def finishLBEntryOf (maxScore : Nat) (p : Nat × Participant) : FinishLBEntry :=
  { username := p.2.username, score := p.2.score, percentage := pct p.2.score maxScore }

/-- The `quiz-completed` payload sent to the finishing connection. -/
structure FinishResult where
  finalScore : Nat
  maxScore : Nat
  percentage : Option Nat
  leaderboard : List FinishLBEntry
  rank : Nat
deriving DecidableEq

/-- The `finish-quiz` handler: guards (no session / no participant) do
nothing; otherwise compute maxScore, percentage, leaderboard and the
finisher's rank (`findIndex` on username, plus 1), send the result, remove
the participant, and delete the session when it becomes empty. -/
def finishQuiz (st : SysState) (connId : Nat) : SysState × Option FinishResult :=
  match st.room with
  | none => (st, none)
  | some s =>
    match s.participants.lookup connId with
    | none => (st, none)
    | some participant =>
      let maxScore := maxScoreOf s.quiz
      let leaderboard :=
        sortScoreDesc (fun e => e.score) (s.participants.map (finishLBEntryOf maxScore))
      let res : FinishResult :=
        { finalScore := participant.score
          maxScore := maxScore
          percentage := pct participant.score maxScore
          leaderboard := leaderboard
          rank := leaderboard.findIdx (fun e => e.username == participant.username) + 1 }
      let ps := s.participants.filter (fun q => q.1 != connId)
      ({ st with room := if ps.isEmpty then none else some { s with participants := ps } },
       some res)

/-- The `disconnect` handler: remove the participant and delete the session
when it becomes empty. -/
def disconnect (st : SysState) (connId : Nat) : SysState :=
  match st.room with
  | none => st
  | some s =>
    let ps := s.participants.filter (fun q => q.1 != connId)
    { st with room := if ps.isEmpty then none else some { s with participants := ps } }

/-- Recognizer for the emitted finish signal. -/
def isFinishSignal : NQOut → Bool
  | NQOut.finishSignal => true
  | _ => false

/-- How many finish signals a run emitted. -/
def countFinish (outs : List NQOut) : Nat :=
  outs.countP isFinishSignal

/-- The broadcast question number of an output, if it is a question payload. -/
def qNum : NQOut → Option Nat
  | NQOut.question payload => some payload.questionNumber
  | _ => none

/-- The claimed session invariant: while `isActive` is set, the current
question index stays strictly below the question count. -/
def activeIndexInvariant (st : SysState) : Prop :=
  ∀ s, st.room = some s → s.isActive = true →
    s.currentQuestion < s.quiz.questions.length

/-- Decidable check of `activeIndexInvariant`. -/
def activeIndexInvariantB (st : SysState) : Bool :=
  match st.room with
  | none => true
  | some s => !s.isActive || decide (s.currentQuestion < s.quiz.questions.length)

/-- A concrete multiple-choice question (correct option "Paris"). -/
def exMCQuestion : Question :=
  { question := "capital"
    type := QType.multipleChoice
    options := [{ text := "Paris", isCorrect := true }, { text := "London", isCorrect := false }]
    correctAnswer := ""
    points := 10
    timeLimit := some 30 }

/-- A concrete fill-in-blank question (stored answer "Paris"). -/
def exFBQuestion : Question :=
  { question := "capital"
    type := QType.fillInBlank
    options := []
    correctAnswer := "Paris"
    points := 5
    timeLimit := none }

/-- A concrete one-question quiz. -/
def exOneQuiz : Quiz := { questions := [exMCQuestion], settingsTimeLimit := 30 }

/-- A concrete two-question quiz. -/
def exTwoQuiz : Quiz := { questions := [exMCQuestion, exFBQuestion], settingsTimeLimit := 30 }

/-- The concrete question store backing `Question.findById` in examples. -/
def exFq : Nat → Option Question := fun qid =>
  if qid = 0 then some exMCQuestion else if qid = 1 then some exFBQuestion else none

/-- A started one-question session holding one participant. -/
def sW1 : Session :=
  { quiz := exOneQuiz
    participants := [(1, ⟨7, "a", 0, []⟩)]
    currentQuestion := 0
    isActive := true
    startTime := some 0 }

/-- The room state holding `sW1` with its armed timer. -/
def stW1 : SysState := ⟨some sW1, 1⟩

/-- The state reached by the run join, start, explicit advance on a
one-question quiz. -/
def stC1run : SysState :=
  (nextQuestion (startQuiz (joinQuiz ⟨none, 0⟩ exOneQuiz 1 7 "a") 0).1).1

/-- The state reached by join then start on a one-question quiz (one armed
timer). -/
def stC9 : SysState := (startQuiz (joinQuiz ⟨none, 0⟩ exOneQuiz 1 7 "a") 0).1

/-- The state reached by join then start then explicit advance on a
two-question quiz (used to exhibit a stale submit being scored). -/
def stC4 : SysState := (nextQuestion (startQuiz (joinQuiz ⟨none, 0⟩ exTwoQuiz 1 7 "alice") 0).1).1

/-- A one-question quiz worth 3 points, for a rounding check (2/3 = 67%). -/
def exQuiz3 : Quiz :=
  { questions := [{ question := "q3", type := QType.multipleChoice
                    options := [{ text := "A", isCorrect := true }]
                    correctAnswer := "", points := 3, timeLimit := none }]
    settingsTimeLimit := 30 }

/-- An active session on `exQuiz3` whose participant has scored 2 of 3. -/
def sW5 : Session :=
  { quiz := exQuiz3
    participants := [(1, ⟨7, "a", 2, []⟩)]
    currentQuestion := 0
    isActive := true
    startTime := some 0 }

/-- The room state holding `sW5`. -/
def stW5 : SysState := ⟨some sW5, 0⟩

/-- A session with scores 50, 50, 30 (a tie) and distinct usernames. -/
def sW6 : Session :=
  { quiz := exOneQuiz
    participants := [(1, ⟨1, "x", 50, []⟩), (2, ⟨2, "y", 50, []⟩), (3, ⟨3, "z", 30, []⟩)]
    currentQuestion := 0
    isActive := true
    startTime := none }

/-- The room state holding `sW6`. -/
def stW6 : SysState := ⟨some sW6, 0⟩

/-- A session whose two participants share the username "alice": the
finisher (connection 1) has score 0, the other participant score 10. -/
def sC7 : Session :=
  { quiz := exOneQuiz
    participants := [(1, ⟨1, "alice", 0, []⟩), (2, ⟨2, "alice", 10, []⟩)]
    currentQuestion := 0
    isActive := true
    startTime := none }

/-- The room state holding `sC7`. -/
def stC7 : SysState := ⟨some sC7, 0⟩

/-- The session produced by a first join to a room on the two-question
quiz. -/
def sW9 : Session :=
  { quiz := exTwoQuiz
    participants := [(1, ⟨7, "a", 0, []⟩)]
    currentQuestion := 0
    isActive := false
    startTime := none }

/-- The room state produced by that first join (no timer armed yet). -/
def stW9 : SysState := joinQuiz ⟨none, 0⟩ exTwoQuiz 1 7 "a"

/-- An active session over a quiz with an empty question list. -/
def sW10 : Session :=
  { quiz := { questions := [], settingsTimeLimit := 30 }
    participants := [(1, ⟨7, "a", 0, []⟩)]
    currentQuestion := 0
    isActive := true
    startTime := none }

/-- The room state holding `sW10`. -/
def stW10 : SysState := ⟨some sW10, 0⟩

end QuizEngine

namespace QuizEngine

/-- Unfolding equation for association-list lookup at a cons cell. -/
theorem lookup_cons (c k : Nat) (v : Participant) (tl : List (Nat × Participant)) :
    List.lookup c ((k, v) :: tl) = if c == k then some v else List.lookup c tl := by
  cases hck : c == k <;> simp [List.lookup, hck]

/-- Overwriting the matching key in place makes lookup return the new value. -/
theorem lookup_map_overwrite (ps : List (Nat × Participant)) (c : Nat) (p : Participant)
    (h : ps.any (fun q => q.1 == c) = true) :
    List.lookup c (ps.map (fun q => if q.1 == c then (c, p) else q)) = some p := by
  induction ps with
  | nil => simp at h
  | cons hd tl ih =>
    obtain ⟨k, v⟩ := hd
    rw [List.map_cons]
    by_cases h1 : (k == c) = true
    · have hkc : k = c := by simpa using h1
      subst hkc
      rw [if_pos (by simp), lookup_cons, if_pos (by simp)]
    · rw [if_neg h1]
      have hkc : k ≠ c := by simpa using h1
      have h2 : tl.any (fun q => q.1 == c) = true := by
        simp only [List.any_cons] at h
        rcases Bool.or_eq_true_iff.mp h with hc | hc
        · exact absurd hc h1
        · exact hc
      rw [lookup_cons, if_neg (fun hc => hkc ((beq_iff_eq.mp hc).symm))]
      exact ih h2

/-- Appending a fresh key at the end makes lookup return the new value. -/
theorem lookup_append_single (ps : List (Nat × Participant)) (c : Nat) (p : Participant)
    (h : ps.any (fun q => q.1 == c) = false) :
    List.lookup c (ps ++ [(c, p)]) = some p := by
  induction ps with
  | nil => rw [List.nil_append, lookup_cons, if_pos (by simp)]
  | cons hd tl ih =>
    obtain ⟨k, v⟩ := hd
    simp only [List.any_cons, Bool.or_eq_false_iff] at h
    have hkc : k ≠ c := by simpa using h.1
    rw [List.cons_append, lookup_cons, if_neg (fun hc => hkc ((beq_iff_eq.mp hc).symm))]
    exact ih h.2

/-- Looking up the key just written by `setParticipant` yields the new value. -/
theorem lookup_setParticipant_self (ps : List (Nat × Participant)) (c : Nat) (p : Participant) :
    (setParticipant ps c p).lookup c = some p := by
  unfold setParticipant
  by_cases h : ps.any (fun q => q.1 == c) = true
  · rw [if_pos h]
    exact lookup_map_overwrite ps c p h
  · rw [if_neg h]
    exact lookup_append_single ps c p (Bool.eq_false_iff.mpr h)

/-- A successful association-list lookup exhibits a member of the list. -/
theorem lookup_mem {ps : List (Nat × Participant)} {c : Nat} {p : Participant}
    (h : ps.lookup c = some p) : (c, p) ∈ ps := by
  induction ps with
  | nil => simp [List.lookup] at h
  | cons hd tl ih =>
    obtain ⟨k, v⟩ := hd
    rw [lookup_cons] at h
    by_cases hck : (c == k) = true
    · rw [if_pos hck] at h
      have hkc : c = k := by simpa using hck
      have hv : v = p := by simpa using h
      subst hkc; subst hv
      exact List.mem_cons_self _ _
    · rw [if_neg hck] at h
      exact List.mem_cons_of_mem _ (ih h)

/-- `insertDesc` only adds the new element: the result is a permutation of
consing it on. -/
theorem insertDesc_perm {α : Type} (sc : α → Nat) (e : α) (l : List α) :
    (insertDesc sc e l).Perm (e :: l) := by
  induction l with
  | nil => exact List.Perm.refl _
  | cons x xs ih =>
    unfold insertDesc
    by_cases h : sc x ≤ sc e
    · rw [if_pos h]
    · rw [if_neg h]
      exact (ih.cons x).trans (List.Perm.swap e x xs)

/-- The stable descending sort permutes its input. -/
theorem sortScoreDesc_perm {α : Type} (sc : α → Nat) (l : List α) :
    (sortScoreDesc sc l).Perm l := by
  induction l with
  | nil => exact List.Perm.refl _
  | cons x xs ih =>
    exact (insertDesc_perm sc x _).trans (ih.cons x)

/-- Elements of one score class are untouched by `insertDesc`: inserting an
element of another class leaves the class's subsequence unchanged, and
inserting a member of the class puts it first among earlier-processed
members (it is skipped only past strictly larger scores). -/
theorem filter_insertDesc {α : Type} (sc : α → Nat) (n : Nat) (e : α) (l : List α) :
    (insertDesc sc e l).filter (fun x => sc x == n) =
      if sc e == n then e :: l.filter (fun x => sc x == n)
      else l.filter (fun x => sc x == n) := by
  induction l with
  | nil =>
    by_cases he : (sc e == n) = true
    · simp [insertDesc, List.filter, he]
    · simp only [Bool.not_eq_true] at he
      simp [insertDesc, List.filter, he]
  | cons x xs ih =>
    unfold insertDesc
    by_cases h : sc x ≤ sc e
    · rw [if_pos h]
      by_cases he : (sc e == n) = true
      · simp [List.filter_cons, he]
      · simp only [Bool.not_eq_true] at he
        simp [List.filter_cons, he]
    · rw [if_neg h]
      have hlt : sc e < sc x := Nat.lt_of_not_le h
      by_cases he : (sc e == n) = true
      · have hen : sc e = n := by simpa using he
        have hx : (sc x == n) = false := by
          simp only [beq_eq_false_iff_ne, ne_eq]
          omega
        simp [List.filter_cons, hx, ih, he]
      · simp only [Bool.not_eq_true] at he
        by_cases hx : (sc x == n) = true
        · simp [List.filter_cons, hx, ih, he]
        · simp only [Bool.not_eq_true] at hx
          simp [List.filter_cons, hx, ih, he]

/-- Stability of the descending sort: every score class keeps its original
relative order (its filtered subsequence is unchanged by sorting). -/
theorem filter_sortScoreDesc {α : Type} (sc : α → Nat) (n : Nat) (l : List α) :
    (sortScoreDesc sc l).filter (fun x => sc x == n) = l.filter (fun x => sc x == n) := by
  induction l with
  | nil => rfl
  | cons x xs ih =>
    rw [sortScoreDesc, filter_insertDesc]
    by_cases hx : (sc x == n) = true
    · simp [List.filter_cons, hx, ih]
    · simp only [Bool.not_eq_true] at hx
      simp [List.filter_cons, hx, ih]

/-- Inserting into a descending-sorted list keeps it descending-sorted. -/
theorem pairwise_insertDesc {α : Type} (sc : α → Nat) (e : α) (l : List α)
    (hl : l.Pairwise (fun a b => sc b ≤ sc a)) :
    (insertDesc sc e l).Pairwise (fun a b => sc b ≤ sc a) := by
  induction l with
  | nil => simp [insertDesc]
  | cons x xs ih =>
    rw [List.pairwise_cons] at hl
    obtain ⟨hx, hxs⟩ := hl
    unfold insertDesc
    by_cases h : sc x ≤ sc e
    · rw [if_pos h]
      refine List.Pairwise.cons ?_ (List.Pairwise.cons hx hxs)
      intro b hb
      rcases List.mem_cons.mp hb with rfl | hb
      · exact h
      · exact le_trans (hx b hb) h
    · rw [if_neg h]
      refine List.Pairwise.cons ?_ (ih hxs)
      intro b hb
      rcases List.mem_cons.mp ((insertDesc_perm sc e xs).mem_iff.mp hb) with rfl | hm
      · exact Nat.le_of_lt (Nat.lt_of_not_le h)
      · exact hx b hm

/-- The stable descending sort produces a descending-sorted list. -/
theorem pairwise_sortScoreDesc {α : Type} (sc : α → Nat) (l : List α) :
    (sortScoreDesc sc l).Pairwise (fun a b => sc b ≤ sc a) := by
  induction l with
  | nil => simp [sortScoreDesc]
  | cons x xs ih => exact pairwise_insertDesc sc x _ ih

/-- Accumulator form of the `reduce` used to compute `maxScore`. -/
theorem foldl_points (l : List Question) (a : Nat) :
    l.foldl (fun total q => total + q.points) a = a + (l.map (fun q => q.points)).sum := by
  induction l generalizing a with
  | nil => simp
  | cons q qs ih =>
    simp only [List.foldl_cons, List.map_cons, List.sum_cons, ih]
    omega

/-- `maxScore` is the sum of the point values of the session's questions. -/
theorem maxScoreOf_eq_sum (quiz : Quiz) :
    maxScoreOf quiz = (quiz.questions.map (fun q => q.points)).sum := by
  unfold maxScoreOf
  rw [foldl_points]
  omega

/-- A nonempty question list whose questions all carry at least one point
(the Question schema enforces `points: min 1`) has positive `maxScore`. -/
theorem maxScoreOf_pos (quiz : Quiz) (hne : quiz.questions ≠ [])
    (hp : ∀ q ∈ quiz.questions, 1 ≤ q.points) : 0 < maxScoreOf quiz := by
  rw [maxScoreOf_eq_sum]
  cases hq : quiz.questions with
  | nil => exact absurd hq hne
  | cons q qs =>
    have h1 : 1 ≤ q.points := hp q (by rw [hq]; exact List.mem_cons_self _ _)
    simp only [List.map_cons, List.sum_cons]
    omega

end QuizEngine

namespace QuizEngine

/-- `findIdx` over a list containing a match lands in bounds on a match. -/
theorem findIdx_spec {α : Type} (p : α → Bool) (l : List α) (x : α)
    (hx : x ∈ l) (hpx : p x = true) :
    ∃ h : l.findIdx p < l.length, p (l.get ⟨l.findIdx p, h⟩) = true := by
  induction l with
  | nil => simp at hx
  | cons a l ih =>
    by_cases ha : p a = true
    · refine ⟨?_, ?_⟩ <;> simp [List.findIdx_cons, ha]
    · have ha' : p a = false := Bool.eq_false_iff.mpr ha
      have hx' : x ∈ l := by
        rcases List.mem_cons.mp hx with rfl | hm
        · exact absurd hpx ha
        · exact hm
      obtain ⟨h, hp⟩ := ih hx'
      have hidx : (a :: l).findIdx p = l.findIdx p + 1 := by
        simp [List.findIdx_cons, ha']
      have hlt : (a :: l).findIdx p < (a :: l).length := by
        rw [hidx, List.length_cons]
        omega
      refine ⟨hlt, ?_⟩
      have hget : (a :: l).get ⟨(a :: l).findIdx p, hlt⟩ = l.get ⟨l.findIdx p, h⟩ := by
        simp [List.get_eq_getElem, hidx]
      rw [hget]
      exact hp

/-- When mapping `f` over the list gives no duplicates, positions with equal
`f`-image coincide. -/
theorem get_inj_of_nodup_map {α β : Type} (f : α → β) (l : List α)
    (hn : (l.map f).Nodup) (i j : Nat) (hi : i < l.length) (hj : j < l.length)
    (h : f (l.get ⟨i, hi⟩) = f (l.get ⟨j, hj⟩)) : i = j := by
  have hi' : i < (l.map f).length := by simpa using hi
  have hj' : j < (l.map f).length := by simpa using hj
  have hg : (l.map f).get ⟨i, hi'⟩ = (l.map f).get ⟨j, hj'⟩ := by
    simpa [List.getElem_map] using h
  have := (List.Nodup.get_inj_iff hn).mp hg
  simpa using this

/-- The invariant implies its decidable check. -/
theorem activeIndexInvariantB_of {st : SysState} (h : activeIndexInvariant st) :
    activeIndexInvariantB st = true := by
  unfold activeIndexInvariantB
  cases hr : st.room with
  | none => rfl
  | some s =>
    cases hA : s.isActive with
    | false => simp [hA]
    | true => simp [hA, h s hr hA]

end QuizEngine

namespace QuizEngine

/-- Draining the single armed timer of an active session with `j` questions
left: each fire advances once, the last fire emits the one finish signal,
the intermediate fires broadcast the remaining question numbers in order,
and no timer stays armed. -/
theorem runTimers_drain (j : Nat) :
    ∀ s : Session, s.isActive = true → 1 ≤ j →
      s.currentQuestion + j = s.quiz.questions.length →
      (runTimers ⟨some s, 1⟩ j).1 =
        ⟨some { s with currentQuestion := s.quiz.questions.length }, 0⟩ ∧
      countFinish (runTimers ⟨some s, 1⟩ j).2 = 1 ∧
      (runTimers ⟨some s, 1⟩ j).2.filterMap qNum =
        List.range' (s.currentQuestion + 2) (j - 1) := by
  induction j with
  | zero =>
    intro s _ h1 _
    omega
  | succ k ih =>
    intro s hact hj hsum
    have hfire : fireTimer ⟨some s, 1⟩ = nextQuestion ⟨some s, 0⟩ := by
      rw [fireTimer, if_neg (by simp)]
      rfl
    rcases Nat.eq_zero_or_pos k with hk0 | hkpos
    · subst hk0
      have hb : s.quiz.questions.length ≤ s.currentQuestion + 1 := by omega
      have hnext : nextQuestion ⟨some s, 0⟩ =
          ({ room := some { s with currentQuestion := s.currentQuestion + 1 }, timers := 0 },
           NQOut.finishSignal) := by
        simp only [nextQuestion, hact, if_true]
        rw [dif_pos hb]
      have hcq : s.currentQuestion + 1 = s.quiz.questions.length := by omega
      refine ⟨?_, ?_, ?_⟩
      · simp only [runTimers, hfire, hnext, hcq]
      · simp [runTimers, hfire, hnext, countFinish, isFinishSignal]
      · simp [runTimers, hfire, hnext, qNum, List.range']
    · have hb : ¬ s.quiz.questions.length ≤ s.currentQuestion + 1 := by omega
      have hnext : nextQuestion ⟨some s, 0⟩ =
          ({ room := some { s with currentQuestion := s.currentQuestion + 1 }, timers := 1 },
           NQOut.question (mkPayload s.quiz
             (s.quiz.questions.get ⟨s.currentQuestion + 1, Nat.lt_of_not_le hb⟩)
             (s.currentQuestion + 1))) := by
        simp only [nextQuestion, hact, if_true]
        rw [dif_neg hb]
      obtain ⟨ih1, ih2, ih3⟩ :=
        ih { s with currentQuestion := s.currentQuestion + 1 } hact hkpos
          (by show s.currentQuestion + 1 + k = s.quiz.questions.length; omega)
      refine ⟨?_, ?_, ?_⟩
      · simp only [runTimers, hfire, hnext]
        rw [ih1]
      · simp only [runTimers, hfire, hnext, countFinish, List.countP_cons] at ih2 ⊢
        simp [isFinishSignal, ih2]
      · simp only [runTimers, hfire, hnext, List.filterMap_cons] at ih3 ⊢
        rw [ih3]
        obtain ⟨m, rfl⟩ : ∃ m, k = m + 1 := ⟨k - 1, by omega⟩
        simp [qNum, mkPayload, List.range']

end QuizEngine

namespace QuizEngine

/-- Reduction of an accepted `submit-answer`: all four guards pass, so the
handler appends the answer record, adds the points, and emits the result. -/
theorem submitAnswer_accept (st : SysState) (s : Session) (p : Participant) (q : Question)
    (fq : Nat → Option Question) (connId qid t : Nat) (sel : String)
    (hroom : st.room = some s) (hact : s.isActive = true)
    (hp : s.participants.lookup connId = some p) (hq : fq qid = some q) :
    submitAnswer st connId fq qid sel t =
      ({ st with room := some { s with participants := (setParticipant s.participants connId (submittedParticipant p q qid t sel)) } },
       some (AnswerResult.mk (checkAnswer q sel)
         (if checkAnswer q sel then q.points else 0)
         (p.score + (if checkAnswer q sel then q.points else 0))
         (revealedAnswer q))) := by
  simp only [submitAnswer, hroom, hact, if_true, hp, hq]
  rfl

/-- The `Math.round((score/maxScore)*100)` value is the nearest integer to
`100 * score / maxScore` (ties rounding up): it is within half of `2*m`. -/
theorem pct_bounds (sc m : Nat) (hm : m ≠ 0) :
    ∃ r, pct sc m = some r ∧ r * (2 * m) ≤ 200 * sc + m ∧
      200 * sc + m < (r + 1) * (2 * m) := by
  refine ⟨(200 * sc + m) / (2 * m), by simp [pct, hm], ?_, ?_⟩
  · exact Nat.div_mul_le_self _ _
  · have hb : 0 < 2 * m := by omega
    calc 200 * sc + m
        < (200 * sc + m) / (2 * m) * (2 * m) + 2 * m := Nat.lt_div_mul_add hb
      _ = ((200 * sc + m) / (2 * m) + 1) * (2 * m) := by ring

/-- C1 (amended): on an active session the advance handler is bound-safe in
its reads — when the incremented index reaches or passes
`quiz.questions.length` it emits the finish signal and broadcasts no
question, and a question payload is only broadcast when the incremented
index is strictly in range. (The strict invariant of the claim fails: the
session stays `isActive` with the index at the bound, see the
counterexample.) -/
theorem C1_advance_reaching_bound (st : SysState) (s : Session)
    (hroom : st.room = some s) (hact : s.isActive = true) :
    (s.quiz.questions.length ≤ s.currentQuestion + 1 →
      nextQuestion st =
        ({ st with room := some { s with currentQuestion := s.currentQuestion + 1 } },
         NQOut.finishSignal)) ∧
    (∀ payload, (nextQuestion st).2 = NQOut.question payload →
      s.currentQuestion + 1 < s.quiz.questions.length) := by
  constructor
  · intro hb
    simp only [nextQuestion, hroom, hact, if_true]
    rw [dif_pos hb]
  · intro payload hq
    by_cases hb : s.quiz.questions.length ≤ s.currentQuestion + 1
    · exfalso
      simp only [nextQuestion, hroom, hact, if_true] at hq
      rw [dif_pos hb] at hq
      cases hq
    · exact Nat.lt_of_not_le hb

/-- Witness for C1: a one-question active session at index 0 reaches the
bound on advance and the handler emits the finish signal. -/
theorem C1_advance_reaching_bound_witness :
    stW1.room = some sW1 ∧ sW1.isActive = true ∧
    ((sW1.quiz.questions.length ≤ sW1.currentQuestion + 1 →
      nextQuestion stW1 =
        ({ stW1 with room := some { sW1 with currentQuestion := sW1.currentQuestion + 1 } },
         NQOut.finishSignal)) ∧
    (∀ payload, (nextQuestion stW1).2 = NQOut.question payload →
      sW1.currentQuestion + 1 < sW1.quiz.questions.length)) :=
  ⟨rfl, rfl, C1_advance_reaching_bound stW1 sW1 rfl rfl⟩

/-- C1 counterexample: after the run join, start, advance on a one-question
quiz, the session is still `isActive` with `currentQuestionIndex = 1 =
quiz.questions.length`, so the claimed strict invariant does not hold at
every point of a run. -/
theorem C1_counterexample : ¬ activeIndexInvariant stC1run := by
  intro h
  have hb := activeIndexInvariantB_of h
  revert hb
  decide

/-- C2: for multiple-choice and true-false questions the submitted answer is
correct iff it equals, character for character, the text of the (first)
option flagged correct — and incorrect when no option is flagged; for
fill-in-blank questions it is correct iff the two sides agree after
lowercasing and trimming (JS `toLowerCase().trim()`). -/
theorem C2_answer_evaluation (q : Question) (sel : String) :
    ((q.type = QType.multipleChoice ∨ q.type = QType.trueFalse) →
      (∀ opt, q.options.find? (fun o => o.isCorrect) = some opt →
        (checkAnswer q sel = true ↔ sel = opt.text)) ∧
      (q.options.find? (fun o => o.isCorrect) = none → checkAnswer q sel = false)) ∧
    (q.type = QType.fillInBlank →
      (checkAnswer q sel = true ↔
        jsTrim (jsToLower q.correctAnswer) = jsTrim (jsToLower sel))) := by
  constructor
  · intro ht
    constructor
    · intro opt hopt
      rcases ht with ht | ht <;>
        (simp only [checkAnswer, ht, hopt]
         rw [beq_iff_eq]
         exact eq_comm)
    · intro hnone
      rcases ht with ht | ht <;> simp [checkAnswer, ht, hnone]
  · intro ht
    simp [checkAnswer, ht, beq_iff_eq]

/-- Witness for C2: "Paris" matches the flagged option exactly, "paris" does
not (case-sensitive), and " PARIS " matches the stored fill-in answer
"Paris" after lowercasing and trimming. -/
theorem C2_answer_evaluation_witness :
    checkAnswer exMCQuestion "Paris" = true ∧
    checkAnswer exMCQuestion "paris" = false ∧
    checkAnswer exFBQuestion " PARIS " = true := by
  refine ⟨?_, ?_, ?_⟩
  · exact (((C2_answer_evaluation exMCQuestion "Paris").1 (Or.inl rfl)).1
      { text := "Paris", isCorrect := true } rfl).mpr rfl
  · have h := ((C2_answer_evaluation exMCQuestion "paris").1 (Or.inl rfl)).1
      { text := "Paris", isCorrect := true } rfl
    rw [Bool.eq_false_iff]
    intro hc
    exact absurd (h.mp hc) (by decide)
  · exact ((C2_answer_evaluation exFBQuestion " PARIS ").2 rfl).mpr (by decide)

end QuizEngine

namespace QuizEngine

/-- C3: an accepted submit awards the question's point value when correct and
0 otherwise, adds exactly that to the participant's score, appends exactly
one answer record carrying the computed correctness and points, and — with
no per-question exclusivity — an immediate second submit for the same
question appends a second identical record and adds the points again. -/
theorem C3_submit_scoring (st : SysState) (s : Session) (p : Participant) (q : Question)
    (fq : Nat → Option Question) (connId qid t : Nat) (sel : String)
    (hroom : st.room = some s) (hact : s.isActive = true)
    (hp : s.participants.lookup connId = some p) (hq : fq qid = some q) :
    ∃ r, (submitAnswer st connId fq qid sel t).2 = some r ∧
      r.isCorrect = checkAnswer q sel ∧
      r.points = (if checkAnswer q sel then q.points else 0) ∧
      r.totalScore = p.score + r.points ∧
      (∃ s1, (submitAnswer st connId fq qid sel t).1.room = some s1 ∧
        s1.participants.lookup connId =
          some (Participant.mk p.userId p.username (p.score + r.points)
            (p.answers ++ [answerRecordOf q qid t sel])) ∧
        (∃ s2, (submitAnswer (submitAnswer st connId fq qid sel t).1 connId fq qid sel t).1.room = some s2 ∧
          s2.participants.lookup connId =
            some (Participant.mk p.userId p.username (p.score + r.points + r.points)
              (p.answers ++ [answerRecordOf q qid t sel, answerRecordOf q qid t sel])))) := by
  have h1 := submitAnswer_accept st s p q fq connId qid t sel hroom hact hp hq
  refine ⟨_, by rw [h1], rfl, rfl, rfl, ?_⟩
  refine ⟨_, by rw [h1], ?_, ?_⟩
  · exact lookup_setParticipant_self s.participants connId (submittedParticipant p q qid t sel)
  · have h2 := submitAnswer_accept (submitAnswer st connId fq qid sel t).1
      { s with participants := (setParticipant s.participants connId (submittedParticipant p q qid t sel)) }
      (submittedParticipant p q qid t sel) q fq connId qid t sel
      (by rw [h1]) hact
      (lookup_setParticipant_self s.participants connId (submittedParticipant p q qid t sel)) hq
    refine ⟨_, by rw [h2], ?_⟩
    have h3 := lookup_setParticipant_self
      (setParticipant s.participants connId (submittedParticipant p q qid t sel)) connId
      (submittedParticipant (submittedParticipant p q qid t sel) q qid t sel)
    rw [h3]
    simp [submittedParticipant, List.append_assoc]

/-- Witness for C3: the participant of `sW1` submits "Paris" for question 0
(correct, 10 points); applying the theorem at this input. -/
theorem C3_submit_scoring_witness :
    stW1.room = some sW1 ∧ sW1.isActive = true ∧
    sW1.participants.lookup 1 = some ⟨7, "a", 0, []⟩ ∧ exFq 0 = some exMCQuestion ∧
    (∃ r, (submitAnswer stW1 1 exFq 0 "Paris" 5).2 = some r ∧
      r.isCorrect = checkAnswer exMCQuestion "Paris" ∧
      r.points = (if checkAnswer exMCQuestion "Paris" then exMCQuestion.points else 0) ∧
      r.totalScore = (⟨7, "a", 0, []⟩ : Participant).score + r.points ∧
      (∃ s1, (submitAnswer stW1 1 exFq 0 "Paris" 5).1.room = some s1 ∧
        s1.participants.lookup 1 =
          some (Participant.mk 7 "a" ((⟨7, "a", 0, []⟩ : Participant).score + r.points)
            ((⟨7, "a", 0, []⟩ : Participant).answers ++ [answerRecordOf exMCQuestion 0 5 "Paris"])) ∧
        (∃ s2, (submitAnswer (submitAnswer stW1 1 exFq 0 "Paris" 5).1 1 exFq 0 "Paris" 5).1.room = some s2 ∧
          s2.participants.lookup 1 =
            some (Participant.mk 7 "a" ((⟨7, "a", 0, []⟩ : Participant).score + r.points + r.points)
              ((⟨7, "a", 0, []⟩ : Participant).answers ++
                [answerRecordOf exMCQuestion 0 5 "Paris", answerRecordOf exMCQuestion 0 5 "Paris"]))))) :=
  ⟨rfl, rfl, rfl, rfl,
    C3_submit_scoring stW1 sW1 ⟨7, "a", 0, []⟩ exMCQuestion exFq 1 0 5 "Paris" rfl rfl rfl rfl⟩

/-- C4 (amended): submit-answer is a silent no-op — state unchanged, no
result emitted — exactly when one of the four guards fails: no session for
the room, session inactive, no participant for the connection, or the
question id not found in the question store. (A stale submit whose question
still resolves is evaluated and scored, see the counterexample.) -/
theorem C4_submit_silent_noop (st : SysState) (connId : Nat) (fq : Nat → Option Question)
    (qid t : Nat) (sel : String)
    (h : st.room = none ∨
         (∃ s, st.room = some s ∧ s.isActive = false) ∨
         (∃ s, st.room = some s ∧ s.participants.lookup connId = none) ∨
         fq qid = none) :
    submitAnswer st connId fq qid sel t = (st, none) := by
  rcases h with h | ⟨s, hs, hin⟩ | ⟨s, hs, hp⟩ | hq
  · simp [submitAnswer, h]
  · simp [submitAnswer, hs, hin]
  · cases hact : s.isActive
    · simp [submitAnswer, hs, hact]
    · simp [submitAnswer, hs, hact, hp]
  · cases hr : st.room with
    | none => simp [submitAnswer, hr]
    | some s =>
      cases hact : s.isActive
      · simp [submitAnswer, hr, hact]
      · cases hp : s.participants.lookup connId with
        | none => simp [submitAnswer, hr, hact, hp]
        | some p => simp [submitAnswer, hr, hact, hp, hq]

/-- Witness for C4: with no session registered for the room, a submit leaves
the state unchanged and emits nothing. -/
theorem C4_submit_silent_noop_witness :
    ((⟨none, 0⟩ : SysState).room = none) ∧
    submitAnswer ⟨none, 0⟩ 1 exFq 0 "Paris" 5 = (⟨none, 0⟩, none) :=
  ⟨rfl, C4_submit_silent_noop ⟨none, 0⟩ 1 exFq 0 5 "Paris" (Or.inl rfl)⟩

/-- C4 counterexample: in `stC4` the session has already advanced to
question index 1, yet a submit for question 0 (which still resolves in the
question store) is evaluated and scored — the answer result is emitted and
the participant's score and answer log change — rather than being swallowed
silently as the claim states. -/
theorem C4_counterexample :
    (stC4.room.map (fun s => s.currentQuestion) = some 1) ∧
    exFq 0 = some exMCQuestion ∧
    (stC4.room.map (fun s => s.quiz.questions) = some [exMCQuestion, exFBQuestion]) ∧
    ((submitAnswer stC4 1 exFq 0 "Paris" 5).2.map (fun r => (r.isCorrect, r.points)) =
      some (true, 10)) ∧
    ((submitAnswer stC4 1 exFq 0 "Paris" 5).1.room.map
        (fun s => (s.participants.lookup 1).map (fun p => (p.score, p.answers.length))) =
      some (some (10, 1))) := by
  decide

/-- C5: for a finish by a present participant (with nonzero `maxScore`), the
result's `finalScore` is the participant's accumulated score, its `maxScore`
is the sum of the questions' point values, and its `percentage` is the
nearest integer to 100·score/maxScore (ties rounding up), expressed by the
two-sided bound on `2 * maxScore`. -/
theorem C5_finish_result (st : SysState) (s : Session) (p : Participant) (connId : Nat)
    (hroom : st.room = some s) (hp : s.participants.lookup connId = some p)
    (hm : maxScoreOf s.quiz ≠ 0) :
    ∃ res, (finishQuiz st connId).2 = some res ∧
      res.finalScore = p.score ∧
      res.maxScore = (s.quiz.questions.map (fun q => q.points)).sum ∧
      ∃ r, res.percentage = some r ∧
        r * (2 * maxScoreOf s.quiz) ≤ 200 * p.score + maxScoreOf s.quiz ∧
        200 * p.score + maxScoreOf s.quiz < (r + 1) * (2 * maxScoreOf s.quiz) := by
  simp only [finishQuiz, hroom, hp]
  refine ⟨_, rfl, rfl, maxScoreOf_eq_sum s.quiz, ?_⟩
  exact pct_bounds p.score (maxScoreOf s.quiz) hm

/-- Witness for C5: the participant of `sW5` scored 2 of a 3-point quiz;
applying the theorem there (the percentage bound pins 67). -/
theorem C5_finish_result_witness :
    stW5.room = some sW5 ∧ sW5.participants.lookup 1 = some ⟨7, "a", 2, []⟩ ∧
    maxScoreOf sW5.quiz ≠ 0 ∧
    (∃ res, (finishQuiz stW5 1).2 = some res ∧
      res.finalScore = (⟨7, "a", 2, []⟩ : Participant).score ∧
      res.maxScore = (sW5.quiz.questions.map (fun q => q.points)).sum ∧
      ∃ r, res.percentage = some r ∧
        r * (2 * maxScoreOf sW5.quiz) ≤ 200 * (⟨7, "a", 2, []⟩ : Participant).score + maxScoreOf sW5.quiz ∧
        200 * (⟨7, "a", 2, []⟩ : Participant).score + maxScoreOf sW5.quiz < (r + 1) * (2 * maxScoreOf sW5.quiz)) :=
  ⟨rfl, rfl, by decide, C5_finish_result stW5 sW5 ⟨7, "a", 2, []⟩ 1 rfl rfl (by decide)⟩

end QuizEngine

namespace QuizEngine

/-- C6: the leaderboard builder returns the current participants' entries
sorted by score descending; participants of equal score keep their original
relative order (every score class's filtered subsequence is unchanged); the
result is a permutation of the current entries, recomputed as a pure
function of the participant map on every call (no rank or order is stored
on a participant — `Participant` carries no such field). Rank is the
1-based position in this order (see the finish handler's rank in C7). -/
theorem C6_leaderboard_order (st : SysState) (s : Session) (hroom : st.room = some s) :
    ∃ lb, getLeaderboard st = some lb ∧
      lb.Pairwise (fun a b => b.score ≤ a.score) ∧
      lb.Perm (s.participants.map lbEntryOf) ∧
      (∀ n, lb.filter (fun e => e.score == n) =
        (s.participants.map lbEntryOf).filter (fun e => e.score == n)) := by
  refine ⟨sortScoreDesc (fun e => e.score) (s.participants.map lbEntryOf), ?_, ?_, ?_, ?_⟩
  · simp [getLeaderboard, hroom]
  · exact pairwise_sortScoreDesc _ _
  · exact sortScoreDesc_perm _ _
  · intro n
    exact filter_sortScoreDesc _ n _

/-- Witness for C6: scores 50, 50, 30 sort to x, y, z — the tied pair keeps
its insertion order. -/
theorem C6_leaderboard_order_witness :
    stW6.room = some sW6 ∧
    getLeaderboard stW6 = some [⟨"x", 50⟩, ⟨"y", 50⟩, ⟨"z", 30⟩] ∧
    (∃ lb, getLeaderboard stW6 = some lb ∧
      lb.Pairwise (fun a b => b.score ≤ a.score) ∧
      lb.Perm (sW6.participants.map lbEntryOf) ∧
      (∀ n, lb.filter (fun e => e.score == n) =
        (sW6.participants.map lbEntryOf).filter (fun e => e.score == n))) :=
  ⟨rfl, by decide, C6_leaderboard_order stW6 sW6 rfl⟩

/-- C7 (amended): finish builds its leaderboard from exactly the
participants present at that instant (a permutation of their entries,
finisher included, already-departed participants absent), and — provided
usernames are pairwise distinct in the session — the returned rank is the
1-based position of the finishing participant's own entry, which is the
unique entry bearing their username. (With duplicate usernames the
`findIndex`-by-username rank can name another participant's position, see
the counterexample.) -/
theorem C7_finish_rank (st : SysState) (s : Session) (p : Participant) (connId : Nat)
    (hroom : st.room = some s) (hp : s.participants.lookup connId = some p)
    (hnd : (s.participants.map (fun q => q.2.username)).Nodup) :
    ∃ res, (finishQuiz st connId).2 = some res ∧
      res.leaderboard.Perm (s.participants.map (finishLBEntryOf (maxScoreOf s.quiz))) ∧
      (∃ i, ∃ hi : i < res.leaderboard.length,
        res.leaderboard.get ⟨i, hi⟩ = finishLBEntryOf (maxScoreOf s.quiz) (connId, p) ∧
        (∀ j, ∀ hj : j < res.leaderboard.length,
          (res.leaderboard.get ⟨j, hj⟩).username = p.username → j = i) ∧
        res.rank = i + 1) := by
  simp only [finishQuiz, hroom, hp]
  set LB := sortScoreDesc (fun e => e.score)
    (s.participants.map (finishLBEntryOf (maxScoreOf s.quiz))) with hLBdef
  have hperm : LB.Perm (s.participants.map (finishLBEntryOf (maxScoreOf s.quiz))) :=
    sortScoreDesc_perm _ _
  have hmem : finishLBEntryOf (maxScoreOf s.quiz) (connId, p) ∈ LB :=
    hperm.mem_iff.mpr (List.mem_map_of_mem _ (lookup_mem hp))
  have hpe : (fun e : FinishLBEntry => e.username == p.username)
      (finishLBEntryOf (maxScoreOf s.quiz) (connId, p)) = true := by
    simp [finishLBEntryOf]
  obtain ⟨hlt, hget⟩ := findIdx_spec (fun e => e.username == p.username) LB _ hmem hpe
  have hme : (s.participants.map (finishLBEntryOf (maxScoreOf s.quiz))).map
      (fun e => e.username) = s.participants.map (fun q => q.2.username) := by
    rw [List.map_map]
    rfl
  have hnd2 : (LB.map (fun e => e.username)).Nodup :=
    (hperm.map (fun e => e.username)).nodup_iff.mpr (by rw [hme]; exact hnd)
  have hgetu : (LB.get ⟨LB.findIdx (fun e => e.username == p.username), hlt⟩).username
      = p.username := by
    simpa using hget
  obtain ⟨⟨k, hk⟩, hke⟩ := List.mem_iff_get.mp hmem
  have hik : LB.findIdx (fun e => e.username == p.username) = k :=
    get_inj_of_nodup_map (fun e => e.username) LB hnd2 _ k hlt hk
      (by
        show (LB.get ⟨LB.findIdx (fun e => e.username == p.username), hlt⟩).username
          = (LB.get ⟨k, hk⟩).username
        rw [hgetu, hke]
        rfl)
  refine ⟨_, rfl, hperm, LB.findIdx (fun e => e.username == p.username), hlt, ?_, ?_, rfl⟩
  · rw [show (⟨LB.findIdx (fun e => e.username == p.username), hlt⟩ : Fin LB.length)
      = ⟨k, hk⟩ from Fin.ext hik, hke]
  · intro j hj hju
    have hju2 : (LB.get ⟨j, hj⟩).username = p.username := hju
    exact get_inj_of_nodup_map (fun e => e.username) LB hnd2 j _ hj hlt
      (by
        show (LB.get ⟨j, hj⟩).username
          = (LB.get ⟨LB.findIdx (fun e => e.username == p.username), hlt⟩).username
        rw [hju2, hgetu])

/-- Witness for C7: in `sW6` (distinct usernames, a 50-50 tie) the
participant "y" finishes; the theorem applies and locates y's own entry. -/
theorem C7_finish_rank_witness :
    stW6.room = some sW6 ∧ sW6.participants.lookup 2 = some ⟨2, "y", 50, []⟩ ∧
    (sW6.participants.map (fun q => q.2.username)).Nodup ∧
    (∃ res, (finishQuiz stW6 2).2 = some res ∧
      res.leaderboard.Perm (sW6.participants.map (finishLBEntryOf (maxScoreOf sW6.quiz))) ∧
      (∃ i, ∃ hi : i < res.leaderboard.length,
        res.leaderboard.get ⟨i, hi⟩ =
          finishLBEntryOf (maxScoreOf sW6.quiz) (2, ⟨2, "y", 50, []⟩) ∧
        (∀ j, ∀ hj : j < res.leaderboard.length,
          (res.leaderboard.get ⟨j, hj⟩).username = (⟨2, "y", 50, []⟩ : Participant).username →
            j = i) ∧
        res.rank = i + 1)) :=
  ⟨rfl, rfl, by decide, C7_finish_rank stW6 sW6 ⟨2, "y", 50, []⟩ 2 rfl rfl (by decide)⟩

/-- C7 counterexample: two participants share the username "alice"; the
finisher has score 0, whose own entry sits at 1-based position 2 of the
leaderboard [10, 0], yet the handler's `findIndex` on username returns
rank 1 — not the finishing participant's own position. -/
theorem C7_counterexample :
    (finishQuiz stC7 1).2.map
      (fun r => (r.finalScore, r.rank, r.leaderboard.map (fun e => e.score))) =
      some (0, 1, [10, 0]) := by
  decide

/-- C8: removing the last participant — by disconnect or by finish — deletes
the session from the registry, and a subsequent join to the room builds a
fresh session with `currentQuestionIndex = 0`, `isActive = false` and only
the joining participant (score 0, empty answer log). -/
theorem C8_session_teardown (st : SysState) (s : Session) (connId : Nat) (p : Participant)
    (hroom : st.room = some s) (hone : s.participants = [(connId, p)]) :
    (disconnect st connId).room = none ∧
    (finishQuiz st connId).1.room = none ∧
    (∀ (st0 : SysState) (quiz : Quiz) (c u : Nat) (name : String), st0.room = none →
      ∃ s0, (joinQuiz st0 quiz c u name).room = some s0 ∧
        s0.currentQuestion = 0 ∧ s0.isActive = false ∧ s0.quiz = quiz ∧
        s0.participants = [(c, Participant.mk u name 0 [])]) := by
  refine ⟨?_, ?_, ?_⟩
  · simp [disconnect, hroom, hone]
  · have hp : s.participants.lookup connId = some p := by
      rw [hone, lookup_cons, if_pos (by simp)]
    simp only [finishQuiz, hroom, hp]
    simp [hone]
  · intro st0 quiz c u name hr0
    refine ⟨Session.mk quiz [(c, Participant.mk u name 0 [])] 0 false none,
      ?_, rfl, rfl, rfl, rfl⟩
    simp [joinQuiz, hr0, freshSession, setParticipant]

/-- Witness for C8: `sW1` holds exactly one participant (connection 1);
applying the theorem there. -/
theorem C8_session_teardown_witness :
    stW1.room = some sW1 ∧ sW1.participants = [(1, ⟨7, "a", 0, []⟩)] ∧
    ((disconnect stW1 1).room = none ∧
     (finishQuiz stW1 1).1.room = none ∧
     (∀ (st0 : SysState) (quiz : Quiz) (c u : Nat) (name : String), st0.room = none →
       ∃ s0, (joinQuiz st0 quiz c u name).room = some s0 ∧
         s0.currentQuestion = 0 ∧ s0.isActive = false ∧ s0.quiz = quiz ∧
         s0.participants = [(c, Participant.mk u name 0 [])])) :=
  ⟨rfl, rfl, C8_session_teardown stW1 sW1 1 ⟨7, "a", 0, []⟩ rfl rfl⟩

/-- C9 (amended): starting a session with N ≥ 1 questions and no armed
timer, then letting the N per-question timeouts fire with no explicit
advance, emits the finish signal exactly once, broadcasts the question
numbers 2..N exactly once each and in order, and leaves no timer armed.
(Timers are never cancelled, so a timer superseded by an explicit advance
still fires and emits again, see the counterexample.) -/
theorem C9_timeouts_finish_once (st0 : SysState) (s0 : Session) (now : Nat)
    (hroom : st0.room = some s0) (ht : st0.timers = 0)
    (hne : 1 ≤ s0.quiz.questions.length) :
    countFinish (runTimers (startQuiz st0 now).1 s0.quiz.questions.length).2 = 1 ∧
    (runTimers (startQuiz st0 now).1 s0.quiz.questions.length).2.filterMap qNum =
      List.range' 2 (s0.quiz.questions.length - 1) ∧
    (runTimers (startQuiz st0 now).1 s0.quiz.questions.length).1.timers = 0 := by
  obtain ⟨q, qs, hqs⟩ : ∃ q qs, s0.quiz.questions = q :: qs := by
    cases h : s0.quiz.questions with
    | nil => rw [h] at hne; simp at hne
    | cons a l => exact ⟨a, l, rfl⟩
  have hst : (startQuiz st0 now).1 =
      ⟨some { s0 with isActive := true, startTime := some now, currentQuestion := 0 }, 1⟩ := by
    simp only [startQuiz, hqs, hroom, List.getElem?_cons_zero]
    rw [ht]
  obtain ⟨d1, d2, d3⟩ := runTimers_drain (s0.quiz.questions.length)
    { s0 with isActive := true, startTime := some now, currentQuestion := 0 }
    rfl hne (by simp)
  rw [hst]
  exact ⟨d2, d3, by rw [d1]⟩

/-- Witness for C9: the joined two-question room `stW9` is started and its
2 timeouts fire. -/
theorem C9_timeouts_finish_once_witness :
    stW9.room = some sW9 ∧ stW9.timers = 0 ∧ 1 ≤ sW9.quiz.questions.length ∧
    (countFinish (runTimers (startQuiz stW9 0).1 sW9.quiz.questions.length).2 = 1 ∧
     (runTimers (startQuiz stW9 0).1 sW9.quiz.questions.length).2.filterMap qNum =
       List.range' 2 (sW9.quiz.questions.length - 1) ∧
     (runTimers (startQuiz stW9 0).1 sW9.quiz.questions.length).1.timers = 0) :=
  ⟨rfl, rfl, by decide, C9_timeouts_finish_once stW9 sW9 0 rfl rfl (by decide)⟩

/-- C9 counterexample: on a one-question quiz, an explicit advance emits the
finish signal but leaves the start-armed timer in place; when that
superseded timer fires it drives the advance handler again and a second
finish signal is emitted — a double-finish. -/
theorem C9_counterexample :
    (nextQuestion stC9).2 = NQOut.finishSignal ∧
    (nextQuestion stC9).1.timers = 1 ∧
    (fireTimer (nextQuestion stC9).1).2 = NQOut.finishSignal := by
  decide

/-- C10: finish computes `percentage` as an unguarded division by
`maxScore`: with an empty question list `maxScore = 0` and the guarded
division's error branch (`none`, JS `NaN`) is returned, while any session
whose quiz has at least one question (each worth ≥ 1 point, as the Question
schema enforces) yields a defined percentage. -/
theorem C10_percentage_division (st : SysState) (s : Session) (p : Participant) (connId : Nat)
    (hroom : st.room = some s) (hp : s.participants.lookup connId = some p) :
    (s.quiz.questions = [] →
      (finishQuiz st connId).2.map (fun r => r.percentage) = some none) ∧
    (s.quiz.questions ≠ [] → (∀ q ∈ s.quiz.questions, 1 ≤ q.points) →
      ∃ n, (finishQuiz st connId).2.map (fun r => r.percentage) = some (some n)) := by
  constructor
  · intro hq
    have hm : maxScoreOf s.quiz = 0 := by simp [maxScoreOf, hq]
    simp only [finishQuiz, hroom, hp]
    simp [pct, hm]
  · intro hne hpts
    have hm : maxScoreOf s.quiz ≠ 0 :=
      Nat.pos_iff_ne_zero.mp (maxScoreOf_pos s.quiz hne hpts)
    simp only [finishQuiz, hroom, hp]
    refine ⟨(200 * p.score + maxScoreOf s.quiz) / (2 * maxScoreOf s.quiz), ?_⟩
    simp [pct, hm]

/-- Witness for C10: the empty-quiz session `sW10` reaches the `none`
branch; the 3-point session `sW5` gets a defined percentage. -/
theorem C10_percentage_division_witness :
    (stW10.room = some sW10 ∧ sW10.participants.lookup 1 = some ⟨7, "a", 0, []⟩ ∧
     sW10.quiz.questions = [] ∧
     (finishQuiz stW10 1).2.map (fun r => r.percentage) = some none) ∧
    (stW5.room = some sW5 ∧ sW5.participants.lookup 1 = some ⟨7, "a", 2, []⟩ ∧
     sW5.quiz.questions ≠ [] ∧ (∀ q ∈ sW5.quiz.questions, 1 ≤ q.points) ∧
     ∃ n, (finishQuiz stW5 1).2.map (fun r => r.percentage) = some (some n)) :=
  ⟨⟨rfl, rfl, rfl, (C10_percentage_division stW10 sW10 ⟨7, "a", 0, []⟩ 1 rfl rfl).1 rfl⟩,
   ⟨rfl, rfl, by decide, by decide,
    (C10_percentage_division stW5 sW5 ⟨7, "a", 2, []⟩ 1 rfl rfl).2 (by decide) (by decide)⟩⟩

end QuizEngine
